import Mathlib

/-!
Shallow embedding of `src/main.rs` of openfoodfacts-packager-codes-imsoc.

The program is a four-stage pipeline: fetch (country, classification-section)
categories from a directory API, fetch establishments per category and group
them by the establishment's own country code, geocode each establishment with
a non-empty approval number, and write the resulting packager codes as CSV.

External effects (the two HTTP page endpoints and the geocoder) are modelled
as function parameters returning `Except String _`; the `HashMap` grouping is
modelled as a function-map `String → List Establishment` together with an
explicit iteration `order : List String` standing for the (unspecified)
iteration order of Rust's `HashMap`.  `f64` coordinates are modelled as `ℚ`.
-/

namespace Imsoc

/-- `struct CountryStatus { id: String }` -/
structure CountryStatus where
  id : String
deriving DecidableEq, Repr

/-- `struct Country { code: String, status: CountryStatus }` -/
structure Country where
  code : String
  status : CountryStatus
deriving DecidableEq, Repr

/-- `struct Street { value: String }` -/
structure Street where
  value : String
deriving DecidableEq, Repr

/-- `struct City { city_id, postal_code, name, country }` -/
structure City where
  cityId : Int
  postalCode : Option String
  name : Option String
  country : Country
deriving DecidableEq, Repr

/-- `struct Address { street: Street, city_reference: City }` -/
structure Address where
  street : Street
  cityReference : City
deriving DecidableEq, Repr

/-- `struct Establishment { operator_id, operator_name, address, approval_number }` -/
structure Establishment where
  operatorId : Int
  operatorName : Option String
  address : Address
  approvalNumber : Option String
deriving DecidableEq, Repr

/-- `struct ClassificationSectionId { id: String, code: String }` -/
structure ClassificationSectionId where
  id : String
  code : String
deriving DecidableEq, Repr

/-- `struct CountryCategory { sequence_number, country, classification_section_id,
number_of_establishments }` -/
structure CountryCategory where
  sequenceNumber : Int
  country : Country
  classificationSectionId : ClassificationSectionId
  numberOfEstablishments : Int
deriving DecidableEq, Repr

/-- `geocoding::Point<f64>` with `f64` modelled as `ℚ`; `x`/`y` as in the crate. -/
structure Point where
  x : ℚ
  y : ℚ
deriving DecidableEq, Repr

/-- `struct PackagerCode { name, code, lat: f64, lng: f64 }` (output record). -/
structure PackagerCode where
  name : String
  code : String
  lat : ℚ
  lng : ℚ
deriving DecidableEq, Repr

/-- The country code an establishment carries in its own address
(`e.address.city_reference.country.code`). -/
def Establishment.countryCode (e : Establishment) : String :=
  e.address.cityReference.country.code

/-- The page fetcher behind `fetch_categories_by_countries_page offset max`
(HTTP GET + JSON decode), abstracted as a function. -/
def CatPage : Type := Int → Int → Except String (List CountryCategory)

/-- The page fetcher behind `fetch_establishments_for_country_and_section_page
country section offset max`, abstracted as a function. -/
def EstPage : Type := String → String → Int → Int → Except String (List Establishment)

/-- The geocoding provider: `osm.forward(&address)` returning either a list of
points or a provider error. -/
def Geocoder : Type := String → Except String (List Point)

/-- `fetch_categories_by_countries`: the Rust `loop` fetches the page at
`offset = 0` with `page_size = 5`; if it is empty it breaks with the (empty)
accumulator, otherwise it appends the page to the accumulator and then hits the
unconditional `break`.  The loop body therefore runs exactly once. -/
def fetch_categories_by_countries (pageFetch : CatPage) :
    Except String (List CountryCategory) := do
  let offset : Int := 0
  let page_size : Int := 5
  let country_categories : List CountryCategory := []
  let page ← pageFetch offset page_size
  if page.isEmpty then
    return country_categories
  else
    return country_categories ++ page

/-- `fetch_establishments_for_country_and_section`: same single-iteration loop
shape as `fetch_categories_by_countries`, with `page_size = 1`. -/
def fetch_establishments_for_country_and_section (pageFetch : EstPage)
    (country sectionCode : String) : Except String (List Establishment) := do
  let offset : Int := 0
  let page_size : Int := 1
  let establishments : List Establishment := []
  let page ← pageFetch country sectionCode offset page_size
  if page.isEmpty then
    return establishments
  else
    return establishments ++ page

/-- The filter predicate of `fetch_valid_categories_by_countries`:
`country.status.id == "V" && number_of_establishments > 0`. -/
def categoryIsValid (c : CountryCategory) : Bool :=
  c.country.status.id == "V" && c.numberOfEstablishments > 0

/-- `fetch_valid_categories_by_countries`: fetch, then keep only the valid
categories (stream `filter` preserves order). -/
def fetch_valid_categories_by_countries (pageFetch : CatPage) :
    Except String (List CountryCategory) := do
  let country_categories ← fetch_categories_by_countries pageFetch
  return country_categories.filter categoryIsValid

/-- The address components `Vec<String>` built in `geocode_all_countries`
(lines 158-172): push the street value if non-empty and not `"."`, then the
postal code if present and non-empty, then the country code if non-empty. -/
def addressComponents (e : Establishment) : List String :=
  let c₀ : List String := []
  let c₁ := if !(e.address.street.value.isEmpty) && !(e.address.street.value == ".")
    then c₀ ++ [e.address.street.value] else c₀
  let c₂ := match e.address.cityReference.postalCode with
    | none => c₁
    | some postal_code => if !postal_code.isEmpty then c₁ ++ [postal_code] else c₁
  let c₃ := if !(e.address.cityReference.country.code.isEmpty)
    then c₂ ++ [e.address.cityReference.country.code] else c₂
  c₃

/-- `let address = address_components.join(", ")`. -/
def addressString (e : Establishment) : String :=
  String.intercalate ", " (addressComponents e)

/-- The skip condition at lines 152-156:
`e.approval_number.is_none() || e.approval_number...is_some_and(|f| f.is_empty())`. -/
def approvalMissingOrEmpty (e : Establishment) : Bool :=
  match e.approvalNumber with
  | none => true
  | some f => f.isEmpty

/-- `osm.forward(&address).unwrap_or_default()` (line 178): a provider error is
swallowed and becomes the empty result list. -/
def geocodeResults (geocode : Geocoder) (address : String) : List Point :=
  match geocode address with
  | .ok r => r
  | .error _ => []

/-- `res.first().unwrap_or(&empty)` with `empty = Point::new(0, 0)` (lines
182-183): the first geocoding result for an establishment's address, defaulting
to `(0, 0)` when there is none. -/
def firstResult (geocode : Geocoder) (e : Establishment) : Point :=
  (geocodeResults geocode (addressString e)).head?.getD ⟨0, 0⟩

/-- The body of the inner `for e in establishments` loop of
`geocode_all_countries`: `none` when the iteration hits a `continue` (missing
or empty approval number, or first coordinate at or below `(0, 0)`), otherwise
the pushed `PackagerCode`. -/
def processEstablishment (geocode : Geocoder) (e : Establishment) :
    Option PackagerCode :=
  if approvalMissingOrEmpty e then none
  else
    let f := firstResult geocode e
    if f.x ≤ 0 ∨ f.y ≤ 0 then none
    else some
      { code := e.address.cityReference.country.code ++ " " ++
          (e.approvalNumber.getD "") ++ " EC"
        name := e.operatorName.getD ""
        lat := f.x
        lng := f.y }

/-- `geocode_all_countries`: iterate the `HashMap` in the (arbitrary) key order
`order`, and within each country process the establishments in `Vec` order,
pushing the surviving records.  The function's only fallible step in Rust is
awaiting the geocoding task's join handle; provider errors are swallowed, so
the result is always `Ok`. -/
def geocode_all_countries (geocode : Geocoder) (order : List String)
    (establishments_by_country : String → List Establishment) :
    Except String (List PackagerCode) :=
  .ok ((order.map
    (fun k => (establishments_by_country k).filterMap (processEstablishment geocode))).flatten)

/-- One step of `grouped_map.entry(key).or_insert_with(Vec::new).push(item)`
with `key = item.address.city_reference.country.code`, on the function-map
model of the `HashMap`. -/
def insertGrouped (m : String → List Establishment) (item : Establishment) :
    String → List Establishment :=
  fun k => if k = item.countryCode then m k ++ [item] else m k

/-- The recursive worker of `map_establishments_to_countries`: for each
category fetch its establishments and push each one under its own country
code. -/
def mapEstGo (pageFetch : EstPage) :
    List CountryCategory → (String → List Establishment) →
    Except String (String → List Establishment)
  | [], grouped_map => .ok grouped_map
  | c :: rest, grouped_map => do
    let data ← fetch_establishments_for_country_and_section pageFetch
      c.country.code c.classificationSectionId.code
    mapEstGo pageFetch rest (data.foldl insertGrouped grouped_map)

/-- `map_establishments_to_countries`, starting from the empty `HashMap`. -/
def map_establishments_to_countries (pageFetch : EstPage)
    (countries_categories : List CountryCategory) :
    Except String (String → List Establishment) :=
  mapEstGo pageFetch countries_categories (fun _ => [])

/-- All establishments fetched by `map_establishments_to_countries`,
concatenated in category order (before any grouping). -/
def allFetched (pageFetch : EstPage) :
    List CountryCategory → Except String (List Establishment)
  | [] => .ok []
  | c :: rest => do
    let data ← fetch_establishments_for_country_and_section pageFetch
      c.country.code c.classificationSectionId.code
    let more ← allFetched pageFetch rest
    return data ++ more

/-- The distinct key set of the grouped `HashMap`, as a list: the country codes
of the fetched establishments with duplicates removed (first occurrences
kept). -/
def groupedKeys (es : List Establishment) : List String :=
  (es.map Establishment.countryCode).dedup

/-- CSV quoting as performed by the `csv` crate with its default
`QuoteStyle::Necessary`: a field is wrapped in double quotes (with inner quotes
doubled) exactly when it contains the delimiter, a quote, or a record
terminator character. -/
def quoteField (s : String) : String :=
  if s.data.any (fun c => c = ',' || c = '"' || c = '\n' || c = '\r') then
    "\"" ++ String.mk (s.data.flatMap (fun c => if c = '"' then ['"', '"'] else [c])) ++ "\""
  else s

/-- The header row the `csv` crate derives from `PackagerCode`'s field names
(serialization order `name, code, lat, lng`). -/
def headerRow : String := "name,code,lat,lng\n"

/-- One serialized CSV record.  `numFmt` abstracts the crate's `f64`
rendering. -/
def recordRow (numFmt : ℚ → String) (c : PackagerCode) : String :=
  quoteField c.name ++ "," ++ quoteField c.code ++ "," ++
    numFmt c.lat ++ "," ++ numFmt c.lng ++ "\n"

/-- The state of `csv::Writer::from_writer(io::stdout())`: whether the header
has been emitted yet (the crate writes it lazily, on the first `serialize`
call), the rows sitting in the writer's buffer, and the rows already flushed to
the underlying stream. -/
structure CsvWriter where
  headerWritten : Bool
  pending : List String
  flushed : List String
deriving DecidableEq, Repr

/-- `wtr.serialize(c)`: writes the header first if this is the first record,
then the record, both into the buffer. -/
def csvSerialize (numFmt : ℚ → String) (w : CsvWriter) (c : PackagerCode) :
    CsvWriter :=
  if w.headerWritten then
    { w with pending := w.pending ++ [recordRow numFmt c] }
  else
    { headerWritten := true
      pending := w.pending ++ [headerRow, recordRow numFmt c]
      flushed := w.flushed }

/-- `wtr.flush()`: moves the buffered output to the underlying stream. -/
def csvFlush (w : CsvWriter) : CsvWriter :=
  { headerWritten := w.headerWritten
    pending := []
    flushed := w.flushed ++ w.pending }

/-- `write_packager_codes_csv`: serialize every record in order, then flush. -/
def write_packager_codes_csv (numFmt : ℚ → String)
    (packager_codes : List PackagerCode) : CsvWriter :=
  csvFlush (packager_codes.foldl (csvSerialize numFmt) ⟨false, [], []⟩)

/-- The bytes `write_packager_codes_csv` leaves on standard output. -/
def csvOutput (numFmt : ℚ → String) (packager_codes : List PackagerCode) :
    String :=
  String.join (write_packager_codes_csv numFmt packager_codes).flushed

/-- The packager codes produced by one run of `main` up to (and excluding) CSV
writing, given the two page fetchers, the geocoder, and the `HashMap`
iteration order used by `geocode_all_countries`. -/
def run_pipeline_codes (catPage : CatPage) (estPage : EstPage)
    (geocode : Geocoder) (order : List String) :
    Except String (List PackagerCode) := do
  let countries_categories ← fetch_valid_categories_by_countries catPage
  let establishments_by_country ←
    map_establishments_to_countries estPage countries_categories
  geocode_all_countries geocode order establishments_by_country

/-- One full run of `main`, producing the CSV bytes written to standard
output. -/
def run_pipeline (catPage : CatPage) (estPage : EstPage) (geocode : Geocoder)
    (order : List String) (numFmt : ℚ → String) : Except String String := do
  let packager_codes ← run_pipeline_codes catPage estPage geocode order
  return csvOutput numFmt packager_codes

/-- The establishments a run fetches (after category filtering), used to state
which iteration orders are possible for the run's grouped `HashMap`. -/
def pipelineEstablishments (catPage : CatPage) (estPage : EstPage) :
    Except String (List Establishment) := do
  let countries_categories ← fetch_valid_categories_by_countries catPage
  allFetched estPage countries_categories

/-- `order` is a possible `HashMap` iteration order for the run: a permutation
of the distinct country codes of the fetched establishments. -/
def ValidOrder (catPage : CatPage) (estPage : EstPage)
    (order : List String) : Prop :=
  ∃ es, pipelineEstablishments catPage estPage = .ok es ∧
    order.Perm (groupedKeys es)

/-! ## Concrete data used by witnesses and counterexamples -/

/-- Establishment with street `"Main St"`, postal code `"12345"`, country
`"FR"`. -/
def exMainSt : Establishment :=
  ⟨0, none, ⟨⟨"Main St"⟩, ⟨0, some "12345", none, ⟨"FR", ⟨"V"⟩⟩⟩⟩, none⟩

/-- Establishment with street `"."`, no postal code, country `"FR"`. -/
def exDotSt : Establishment :=
  ⟨0, none, ⟨⟨"."⟩, ⟨0, none, none, ⟨"FR", ⟨"V"⟩⟩⟩⟩, none⟩

/-- Establishment with empty street, empty postal code and empty country
code. -/
def exAllEmpty : Establishment :=
  ⟨0, none, ⟨⟨""⟩, ⟨0, some "", none, ⟨"", ⟨"V"⟩⟩⟩⟩, none⟩

/-- A category with status `"V"` but zero establishments. -/
def exCatV0 : CountryCategory := ⟨1, ⟨"FR", ⟨"V"⟩⟩, ⟨"s", "01"⟩, 0⟩

/-- A category with status `"X"` and five establishments. -/
def exCatX5 : CountryCategory := ⟨2, ⟨"FR", ⟨"X"⟩⟩, ⟨"s", "01"⟩, 5⟩

/-- A valid category for country `"AA"`. -/
def exCatAA : CountryCategory := ⟨1, ⟨"AA", ⟨"V"⟩⟩, ⟨"s", "01"⟩, 1⟩

/-- A valid category for country `"BB"`. -/
def exCatBB : CountryCategory := ⟨2, ⟨"BB", ⟨"V"⟩⟩, ⟨"s", "01"⟩, 1⟩

/-- An establishment in country `"AA"` with approval number `"1"`. -/
def exEstAA : Establishment :=
  ⟨1, none, ⟨⟨"."⟩, ⟨1, none, none, ⟨"AA", ⟨"V"⟩⟩⟩⟩, some "1"⟩

/-- An establishment in country `"BB"` with approval number `"2"`. -/
def exEstBB : Establishment :=
  ⟨2, none, ⟨⟨"."⟩, ⟨2, none, none, ⟨"BB", ⟨"V"⟩⟩⟩⟩, some "2"⟩

/-- An establishment in country `"FR"` with approval number `"00123"`. -/
def exEstFR : Establishment :=
  ⟨3, some "Op", ⟨⟨"."⟩, ⟨3, none, none, ⟨"FR", ⟨"V"⟩⟩⟩⟩, some "00123"⟩

/-- A category page fetcher always answering `[exCatAA, exCatBB]`. -/
def exCatPage : CatPage := fun _ _ => .ok [exCatAA, exCatBB]

/-- An establishment page fetcher answering `[exEstAA]` for country `"AA"` and
`[exEstBB]` otherwise. -/
def exEstPage : EstPage :=
  fun c _ _ _ => if c = "AA" then .ok [exEstAA] else .ok [exEstBB]

/-- A geocoder always answering the single point `(1, 1)`. -/
def exGeo : Geocoder := fun _ => .ok [⟨1, 1⟩]

/-- A geocoder that fails on `"AA"` (the address string of `exEstAA`) and
answers `(1, 1)` elsewhere. -/
def exGeoErr : Geocoder :=
  fun a => if a = "AA" then .error "provider error" else .ok [⟨1, 1⟩]

/-- A fixed rendering of the `ℚ`-modelled `f64` fields. -/
def exFmt : ℚ → String := fun _ => "0"

/-- The grouped map of the concrete two-category run. -/
def exGrouped : String → List Establishment :=
  List.foldl insertGrouped (List.foldl insertGrouped (fun _ => []) [exEstAA]) [exEstBB]

/-- A category page fetcher honouring `max`, answering a prefix of the two
valid categories. -/
def exCatPageB : CatPage := fun _ mx => .ok ([exCatAA, exCatBB].take mx.toNat)

/-- An establishment page fetcher honouring `max`. -/
def exEstPageB : EstPage := fun c _ _ mx =>
  .ok ((if c = "AA" then [exEstAA] else [exEstBB]).take mx.toNat)

/-! ## The spec's own description of the address join, for refinement -/

/-- The address parts exactly as §3 of the spec words them: "joining non-empty,
non-`"."` street value, then non-empty postal code, then non-empty country
code, with `", "` — any of the three parts may be absent". -/
def specAddressParts (e : Establishment) : List String :=
  (if e.address.street.value ≠ "" ∧ e.address.street.value ≠ "." then
    [e.address.street.value] else [])
  ++ (match e.address.cityReference.postalCode with
      | some p => if p ≠ "" then [p] else []
      | none => [])
  ++ (if e.address.cityReference.country.code ≠ "" then
    [e.address.cityReference.country.code] else [])

/-! ## Helper lemmas -/

/-- The category loop returns exactly the page at offset 0 with max 5. -/
theorem fetch_categories_eq_page (cp : CatPage) :
    fetch_categories_by_countries cp = cp 0 5 := by
  unfold fetch_categories_by_countries
  cases h : cp 0 5 with
  | error e => simp [h, Bind.bind, Except.bind]
  | ok page =>
    cases page with
    | nil => simp [h, Bind.bind, Except.bind, List.isEmpty, Pure.pure, Except.pure]
    | cons a l => simp [h, Bind.bind, Except.bind, List.isEmpty, Pure.pure, Except.pure]

/-- The establishment loop returns exactly the page at offset 0 with max 1. -/
theorem fetch_establishments_eq_page (ep : EstPage) (country sectionCode : String) :
    fetch_establishments_for_country_and_section ep country sectionCode =
      ep country sectionCode 0 1 := by
  unfold fetch_establishments_for_country_and_section
  cases h : ep country sectionCode 0 1 with
  | error e => simp [h, Bind.bind, Except.bind]
  | ok page =>
    cases page with
    | nil => simp [h, Bind.bind, Except.bind, List.isEmpty, Pure.pure, Except.pure]
    | cons a l => simp [h, Bind.bind, Except.bind, List.isEmpty, Pure.pure, Except.pure]

/-- `s.is_empty()` is false exactly on non-empty strings. -/
theorem isEmpty_eq_false_iff (s : String) : s.isEmpty = false ↔ ¬ s = "" := by
  simp [Bool.eq_false_iff, String.isEmpty_iff s]

/-- The components pushed by the code coincide with the parts the spec
describes. -/
theorem addressComponents_eq_spec (e : Establishment) :
    addressComponents e = specAddressParts e := by
  unfold addressComponents specAddressParts
  cases hp : e.address.cityReference.postalCode with
  | none =>
    split_ifs <;> simp_all [String.isEmpty_iff, isEmpty_eq_false_iff]
  | some p =>
    split_ifs <;> simp_all [String.isEmpty_iff, isEmpty_eq_false_iff] <;>
      split_ifs <;> simp_all

/-! ## Claims -/

/-- C2: `fetch_categories_by_countries` and
`fetch_establishments_for_country_and_section` each fetch exactly one page
(offset 0, with their respective fixed page sizes) and return exactly that
page's contents, the empty list included, whatever the page fetcher answers. -/
theorem claim_C2_single_page :
    (∀ cp : CatPage, fetch_categories_by_countries cp = cp 0 5) ∧
    (∀ (ep : EstPage) (country sectionCode : String),
      fetch_establishments_for_country_and_section ep country sectionCode =
        ep country sectionCode 0 1) :=
  ⟨fetch_categories_eq_page, fetch_establishments_eq_page⟩

/-- C3: the address string handed to the geocoder is the `", "`-join of the
parts the spec lists (street if non-empty and not `"."`, then postal code if
present and non-empty, then country code if non-empty), and the three worked
examples of the spec evaluate as stated. -/
theorem claim_C3_address_join :
    (∀ e : Establishment,
      addressString e = String.intercalate ", " (specAddressParts e)) ∧
    addressString exMainSt = "Main St, 12345, FR" ∧
    addressString exDotSt = "FR" ∧
    addressString exAllEmpty = "" := by
  refine ⟨fun e => ?_, by decide, by decide, by decide⟩
  unfold addressString
  rw [addressComponents_eq_spec]

/-- C5: `fetch_valid_categories_by_countries` returns exactly the fetched
categories with `country.status.id = "V"` and `numberOfEstablishments > 0`;
the spec's two exclusion examples are excluded. -/
theorem claim_C5_category_filter :
    (∀ (cp : CatPage) (cats : List CountryCategory),
      fetch_categories_by_countries cp = .ok cats →
      fetch_valid_categories_by_countries cp = .ok (cats.filter categoryIsValid)) ∧
    (∀ (cats : List CountryCategory) (c : CountryCategory),
      c ∈ cats.filter categoryIsValid ↔
        c ∈ cats ∧ c.country.status.id = "V" ∧ 0 < c.numberOfEstablishments) ∧
    categoryIsValid exCatV0 = false ∧ categoryIsValid exCatX5 = false := by
  refine ⟨?_, ?_, by decide, by decide⟩
  · intro cp cats h
    unfold fetch_valid_categories_by_countries
    rw [h]
    rfl
  · intro cats c
    simp [List.mem_filter, categoryIsValid, and_assoc]

/-- Witness for C5 at the concrete two-category page fetcher. -/
theorem claim_C5_witness :
    fetch_valid_categories_by_countries exCatPage =
      .ok ([exCatAA, exCatBB].filter categoryIsValid) :=
  claim_C5_category_filter.1 exCatPage [exCatAA, exCatBB] rfl

/-- The skip guard is false exactly when the approval number is present and
non-empty. -/
theorem approval_present_of_not_missing (e : Establishment)
    (h : ¬ approvalMissingOrEmpty e = true) :
    ∃ a, e.approvalNumber = some a ∧ a ≠ "" := by
  cases ha : e.approvalNumber with
  | none => simp [approvalMissingOrEmpty, ha] at h
  | some a =>
    exact ⟨a, rfl, by simpa [approvalMissingOrEmpty, ha, String.isEmpty_iff] using h⟩

/-- Everything `processEstablishment` guarantees about an emitted record. -/
theorem processEstablishment_some_spec (g : Geocoder) (e : Establishment)
    (pc : PackagerCode) (h : processEstablishment g e = some pc) :
    (∃ a, e.approvalNumber = some a ∧ a ≠ "") ∧
    0 < (firstResult g e).x ∧ 0 < (firstResult g e).y ∧
    pc = ⟨e.operatorName.getD "",
      e.address.cityReference.country.code ++ " " ++ (e.approvalNumber.getD "") ++ " EC",
      (firstResult g e).x, (firstResult g e).y⟩ := by
  unfold processEstablishment at h
  by_cases h1 : approvalMissingOrEmpty e
  · simp [h1] at h
  · rw [if_neg h1] at h
    by_cases h2 : (firstResult g e).x ≤ 0 ∨ (firstResult g e).y ≤ 0
    · simp [h2] at h
    · rw [if_neg h2] at h
      push_neg at h2
      injection h with h
      exact ⟨approval_present_of_not_missing e h1, h2.1, h2.2, h.symm⟩

/-- Every member of the output of `geocode_all_countries` comes from
`processEstablishment` on an establishment stored under some iterated key. -/
theorem geocode_all_countries_mem (g : Geocoder) (order : List String)
    (m : String → List Establishment) (l : List PackagerCode)
    (hl : geocode_all_countries g order m = .ok l) (pc : PackagerCode)
    (hpc : pc ∈ l) :
    ∃ k ∈ order, ∃ e ∈ m k, processEstablishment g e = some pc := by
  unfold geocode_all_countries at hl
  injection hl with hl
  subst hl
  rcases List.mem_flatten.mp hpc with ⟨s, hs, hpcs⟩
  rcases List.mem_map.mp hs with ⟨k, hk, rfl⟩
  rcases List.mem_filterMap.mp hpcs with ⟨e, he, hpe⟩
  exact ⟨k, hk, e, he, hpe⟩

/-- `processEstablishment` only looks at the geocoder through the swallowed
result list for the establishment's own address. -/
theorem processEstablishment_congr (g g' : Geocoder) (e : Establishment)
    (h : geocodeResults g (addressString e) = geocodeResults g' (addressString e)) :
    processEstablishment g e = processEstablishment g' e := by
  unfold processEstablishment firstResult
  rw [h]

/-- C1: a record is produced for an establishment exactly under the claimed
guard (present non-empty approval number, first geocoding result — defaulted
to `(0,0)` — strictly positive in both coordinates), and every record in the
returned sequence has `lat > 0` and `lng > 0`. -/
theorem claim_C1_emission_condition :
    (∀ (g : Geocoder) (e : Establishment) (pc : PackagerCode),
      processEstablishment g e = some pc →
        (∃ a, e.approvalNumber = some a ∧ a ≠ "") ∧
        0 < (firstResult g e).x ∧ 0 < (firstResult g e).y) ∧
    (∀ (g : Geocoder) (order : List String) (m : String → List Establishment)
      (l : List PackagerCode),
      geocode_all_countries g order m = .ok l →
      ∀ pc ∈ l, 0 < pc.lat ∧ 0 < pc.lng) := by
  constructor
  · intro g e pc h
    obtain ⟨ha, hx, hy, _⟩ := processEstablishment_some_spec g e pc h
    exact ⟨ha, hx, hy⟩
  · intro g order m l hl pc hpc
    obtain ⟨k, _, e, _, hpe⟩ := geocode_all_countries_mem g order m l hl pc hpc
    obtain ⟨_, hx, hy, hpc'⟩ := processEstablishment_some_spec g e pc hpe
    rw [hpc']
    exact ⟨hx, hy⟩

/-- Witness for C1 at a concrete geocoder and establishment. -/
theorem claim_C1_witness :
    (∃ a, exEstFR.approvalNumber = some a ∧ a ≠ "") ∧
    0 < (firstResult exGeo exEstFR).x ∧ 0 < (firstResult exGeo exEstFR).y :=
  claim_C1_emission_condition.1 exGeo exEstFR ⟨"Op", "FR 00123 EC", 1, 1⟩ (by decide)

/-- C6: every emitted record's `code` is the establishment's city-reference
country code, a space, the approval number, a space, and `"EC"`; the spec's
`"FR 00123 EC"` example evaluates as stated. -/
theorem claim_C6_code_format :
    (∀ (g : Geocoder) (e : Establishment) (pc : PackagerCode),
      processEstablishment g e = some pc →
      ∃ a, e.approvalNumber = some a ∧
        pc.code = e.address.cityReference.country.code ++ " " ++ a ++ " EC") ∧
    (processEstablishment exGeo exEstFR).map PackagerCode.code =
      some "FR 00123 EC" := by
  constructor
  · intro g e pc h
    obtain ⟨⟨a, ha, _⟩, _, _, hpc⟩ := processEstablishment_some_spec g e pc h
    exact ⟨a, ha, by rw [hpc, ha]; rfl⟩
  · decide

/-- Witness for C6 at a concrete geocoder and establishment. -/
theorem claim_C6_witness :
    ∃ a, exEstFR.approvalNumber = some a ∧
      (⟨"Op", "FR 00123 EC", 1, 1⟩ : PackagerCode).code =
        exEstFR.address.cityReference.country.code ++ " " ++ a ++ " EC" :=
  claim_C6_code_format.1 exGeo exEstFR ⟨"Op", "FR 00123 EC", 1, 1⟩ (by decide)

/-- C7: a geocoding-provider error never escapes `geocode_all_countries`: the
establishment whose address failed is skipped (its failed call behaves exactly
like a zero-result answer) and the rest of the run is unchanged, the result
staying `Ok`. -/
theorem claim_C7_geocode_error_recovered :
    ∀ (g : Geocoder) (a err : String), g a = .error err →
      (∀ e : Establishment, addressString e = a →
        processEstablishment g e = none) ∧
      (∀ (order : List String) (m : String → List Establishment),
        geocode_all_countries g order m =
          geocode_all_countries (fun s => if s = a then .ok [] else g s) order m ∧
        ∃ l, geocode_all_countries g order m = .ok l) := by
  intro g a err hg
  have hres : geocodeResults g a = [] := by simp [geocodeResults, hg]
  constructor
  · intro e he
    unfold processEstablishment firstResult
    rw [he, hres]
    simp
  · intro order m
    constructor
    · unfold geocode_all_countries
      congr 1
      apply congrArg List.flatten
      apply List.map_congr_left
      intro k _
      apply List.filterMap_congr
      intro e _
      apply processEstablishment_congr
      by_cases he : addressString e = a
      · rw [he, hres]
        simp [geocodeResults]
      · simp [geocodeResults, he]
    · exact ⟨_, rfl⟩

/-- Witness for C7 at a concrete failing geocoder. -/
theorem claim_C7_witness : processEstablishment exGeoErr exEstAA = none :=
  (claim_C7_geocode_error_recovered exGeoErr "AA" "provider error" rfl).1
    exEstAA (by decide)

/-- Folding `insertGrouped` appends, under each key, exactly the pushed
establishments whose own country code is that key. -/
theorem foldl_insertGrouped_apply (data : List Establishment)
    (m : String → List Establishment) (k : String) :
    (data.foldl insertGrouped m) k =
      m k ++ data.filter (fun e => e.countryCode == k) := by
  induction data generalizing m with
  | nil => simp
  | cons e rest ih =>
    rw [List.foldl_cons, ih]
    by_cases h : k = e.countryCode
    · simp [insertGrouped, h, List.filter_cons]
    · have h' : (e.countryCode == k) = false := by
        simp only [beq_eq_false_iff_ne, ne_eq]
        exact fun hh => h hh.symm
      simp [insertGrouped, h, List.filter_cons, h']

/-- What `mapEstGo` adds on top of its accumulator: the fetched
establishments, grouped under their own country codes. -/
theorem mapEstGo_spec (ep : EstPage) (cats : List CountryCategory)
    (m : String → List Establishment) (grouped : String → List Establishment)
    (h : mapEstGo ep cats m = .ok grouped) :
    ∃ es, allFetched ep cats = .ok es ∧
      ∀ k, grouped k = m k ++ es.filter (fun e => e.countryCode == k) := by
  induction cats generalizing m with
  | nil =>
    injection h with h
    subst h
    exact ⟨[], rfl, by simp [allFetched]⟩
  | cons c rest ih =>
    unfold mapEstGo at h
    cases hd : fetch_establishments_for_country_and_section ep
        c.country.code c.classificationSectionId.code with
    | error err => rw [hd] at h; exact absurd h (by simp [Bind.bind, Except.bind])
    | ok data =>
      rw [hd] at h
      simp only [Bind.bind, Except.bind] at h
      obtain ⟨es, hes, hk⟩ := ih _ h
      refine ⟨data ++ es, ?_, ?_⟩
      · unfold allFetched
        rw [hd, hes]
        rfl
      · intro k
        rw [hk, foldl_insertGrouped_apply, List.filter_append, List.append_assoc]

/-- C4: in the grouped mapping every fetched establishment is stored under the
key equal to its own city-reference country code: the list under key `k` is
exactly the (sub)sequence of all fetched establishments whose own code is `k`,
so each fetched establishment appears exactly once, under its own key, never
under the key of the category that caused its fetch. -/
theorem claim_C4_grouped_by_own_code :
    ∀ (ep : EstPage) (cats : List CountryCategory)
      (grouped : String → List Establishment),
      map_establishments_to_countries ep cats = .ok grouped →
      ∃ es, allFetched ep cats = .ok es ∧
        (∀ k, grouped k = es.filter (fun e => e.countryCode == k)) ∧
        (∀ k, ∀ e ∈ grouped k, e.countryCode = k) := by
  intro ep cats grouped h
  obtain ⟨es, hes, hk⟩ := mapEstGo_spec ep cats (fun _ => []) grouped h
  refine ⟨es, hes, fun k => by simpa using hk k, ?_⟩
  intro k e he
  rw [hk k] at he
  simp only [List.nil_append, List.mem_filter, beq_iff_eq] at he
  exact he.2

/-- Witness for C4 at the concrete two-category run. -/
theorem claim_C4_witness :
    ∃ es, allFetched exEstPage [exCatAA, exCatBB] = .ok es ∧
      (∀ k, exGrouped k = es.filter (fun e => e.countryCode == k)) ∧
      (∀ k, ∀ e ∈ exGrouped k, e.countryCode = k) :=
  claim_C4_grouped_by_own_code exEstPage [exCatAA, exCatBB] exGrouped rfl

/-- Folding `serialize` once the header is out just appends one row per
record, in order. -/
theorem foldl_csvSerialize_true (fmt : ℚ → String) (codes : List PackagerCode)
    (p f : List String) :
    codes.foldl (csvSerialize fmt) ⟨true, p, f⟩ =
      ⟨true, p ++ codes.map (recordRow fmt), f⟩ := by
  induction codes generalizing p with
  | nil => simp
  | cons c rest ih =>
    rw [List.foldl_cons]
    show rest.foldl (csvSerialize fmt) ⟨true, p ++ [recordRow fmt c], f⟩ = _
    rw [ih]
    simp

/-- What `write_packager_codes_csv` leaves flushed and buffered: nothing at
all for the empty input (the `csv` crate only writes its header on the first
`serialize` call), and the header followed by one row per record, in input
order, otherwise; the buffer is always empty on return because of the final
`flush`. -/
theorem write_csv_spec (fmt : ℚ → String) (codes : List PackagerCode) :
    (write_packager_codes_csv fmt codes).pending = [] ∧
    (write_packager_codes_csv fmt codes).flushed =
      if codes.isEmpty then [] else headerRow :: codes.map (recordRow fmt) := by
  cases codes with
  | nil => exact ⟨rfl, rfl⟩
  | cons c rest =>
    unfold write_packager_codes_csv
    rw [List.foldl_cons]
    have h0 : csvSerialize fmt ⟨false, [], []⟩ c =
        ⟨true, [headerRow, recordRow fmt c], []⟩ := rfl
    rw [h0, foldl_csvSerialize_true]
    exact ⟨rfl, by simp [csvFlush]⟩

/-- C8 (amended): for every non-empty input `write_packager_codes_csv` writes
the `name,code,lat,lng` header row followed by exactly one row per record in
input order and flushes before returning; for the empty input it writes
nothing at all. -/
theorem claim_C8_csv_rows :
    ∀ (fmt : ℚ → String) (codes : List PackagerCode),
      (write_packager_codes_csv fmt codes).pending = [] ∧
      (write_packager_codes_csv fmt codes).flushed =
        if codes.isEmpty then [] else headerRow :: codes.map (recordRow fmt) :=
  write_csv_spec

/-- C8 counterexample: on the empty input the writer emits no header row at
all (the output is empty), contradicting the claim that a header row is
written for every input including the empty sequence. -/
theorem claim_C8_counterexample :
    csvOutput exFmt [] = "" ∧
    (write_packager_codes_csv exFmt []).flushed ≠ [headerRow] := by
  exact ⟨rfl, by decide⟩

/-- A permutation of a list of lists permutes its concatenation. -/
theorem flatten_perm {α : Type} {l₁ l₂ : List (List α)} (h : l₁.Perm l₂) :
    l₁.flatten.Perm l₂.flatten := by
  induction h with
  | nil => exact List.Perm.refl _
  | cons x _ ih => simpa using ih.append_left x
  | swap x y l =>
    simp only [List.flatten_cons, ← List.append_assoc]
    exact List.Perm.append_right _ List.perm_append_comm
  | trans _ _ ih₁ ih₂ => exact ih₁.trans ih₂

/-- The intermediate values of a successful `run_pipeline_codes` run. -/
theorem run_pipeline_codes_spec (cp : CatPage) (ep : EstPage) (g : Geocoder)
    (order : List String) (codes : List PackagerCode)
    (h : run_pipeline_codes cp ep g order = .ok codes) :
    ∃ cats grouped, fetch_valid_categories_by_countries cp = .ok cats ∧
      map_establishments_to_countries ep cats = .ok grouped ∧
      geocode_all_countries g order grouped = .ok codes := by
  unfold run_pipeline_codes at h
  cases hc : fetch_valid_categories_by_countries cp with
  | error err => rw [hc] at h; exact absurd h (by simp [Bind.bind, Except.bind])
  | ok cats =>
    rw [hc] at h
    simp only [Bind.bind, Except.bind] at h
    cases hm : map_establishments_to_countries ep cats with
    | error err => rw [hm] at h; exact absurd h (by simp [Except.bind])
    | ok grouped =>
      rw [hm] at h
      exact ⟨cats, grouped, rfl, hm, h⟩

/-- Iterating the same grouped map in two permuted key orders permutes the
produced records. -/
theorem geocode_all_countries_perm (g : Geocoder)
    (m : String → List Establishment) {o₁ o₂ : List String} (h : o₁.Perm o₂)
    (l₁ l₂ : List PackagerCode)
    (h₁ : geocode_all_countries g o₁ m = .ok l₁)
    (h₂ : geocode_all_countries g o₂ m = .ok l₂) : l₁.Perm l₂ := by
  unfold geocode_all_countries at h₁ h₂
  injection h₁ with h₁
  injection h₂ with h₂
  subst h₁
  subst h₂
  exact flatten_perm (h.map _)

/-- C9 counterexample: a concrete run in which both key orders are possible
iteration orders of the same grouped `HashMap` (they are permutations of its
key set) yet the two CSV outputs differ byte-wise — the composed pipeline is
not deterministic across the map's iteration orders. -/
theorem claim_C9_counterexample :
    ValidOrder exCatPage exEstPage ["AA", "BB"] ∧
    ValidOrder exCatPage exEstPage ["BB", "AA"] ∧
    run_pipeline exCatPage exEstPage exGeo ["AA", "BB"] exFmt ≠
      run_pipeline exCatPage exEstPage exGeo ["BB", "AA"] exFmt := by
  refine ⟨⟨[exEstAA, exEstBB], rfl, List.Perm.refl _⟩,
    ⟨[exEstAA, exEstBB], rfl, List.Perm.swap "AA" "BB" []⟩, ?_⟩
  intro h
  rw [show run_pipeline exCatPage exEstPage exGeo ["AA", "BB"] exFmt =
      .ok "name,code,lat,lng\n,AA 1 EC,0,0\n,BB 2 EC,0,0\n" from rfl,
    show run_pipeline exCatPage exEstPage exGeo ["BB", "AA"] exFmt =
      .ok "name,code,lat,lng\n,BB 2 EC,0,0\n,AA 1 EC,0,0\n" from rfl] at h
  injection h with h
  exact absurd h (by decide)

/-- C9 (amended): over identical directory-API responses and identical
geocoder responses the pipeline is deterministic only up to the grouped map's
iteration order: two runs whose iteration orders are permutations of each
other produce the same records and the same CSV rows up to reordering
(byte-identical output needs the iteration order pinned, which Rust's
`HashMap` does not provide). -/
theorem claim_C9_determinism_up_to_order :
    ∀ (cp : CatPage) (ep : EstPage) (g : Geocoder) (fmt : ℚ → String)
      (o₁ o₂ : List String) (l₁ l₂ : List PackagerCode),
      o₁.Perm o₂ →
      run_pipeline_codes cp ep g o₁ = .ok l₁ →
      run_pipeline_codes cp ep g o₂ = .ok l₂ →
      l₁.Perm l₂ ∧
      (write_packager_codes_csv fmt l₁).flushed.Perm
        (write_packager_codes_csv fmt l₂).flushed := by
  intro cp ep g fmt o₁ o₂ l₁ l₂ ho h₁ h₂
  obtain ⟨cats₁, grouped₁, hc₁, hm₁, hg₁⟩ := run_pipeline_codes_spec cp ep g o₁ l₁ h₁
  obtain ⟨cats₂, grouped₂, hc₂, hm₂, hg₂⟩ := run_pipeline_codes_spec cp ep g o₂ l₂ h₂
  have hcats : cats₁ = cats₂ := by
    have := hc₁.symm.trans hc₂
    injection this
  subst hcats
  have hgrouped : grouped₁ = grouped₂ := by
    have := hm₁.symm.trans hm₂
    injection this
  subst hgrouped
  have hperm : l₁.Perm l₂ := geocode_all_countries_perm g grouped₁ ho l₁ l₂ hg₁ hg₂
  refine ⟨hperm, ?_⟩
  rw [(write_csv_spec fmt l₁).2, (write_csv_spec fmt l₂).2]
  cases l₁ with
  | nil =>
    have h2 : l₂ = [] := List.Perm.eq_nil hperm.symm
    subst h2
    exact List.Perm.refl _
  | cons a t =>
    cases l₂ with
    | nil => exact absurd (List.Perm.eq_nil hperm) (by simp)
    | cons b s =>
      simp only [List.isEmpty_cons, Bool.false_eq_true, if_false]
      exact (hperm.map (recordRow fmt)).cons headerRow

/-- Witness for the amended C9 at the concrete run with the two swapped key
orders. -/
theorem claim_C9_witness :
    ([⟨"", "AA 1 EC", 1, 1⟩, ⟨"", "BB 2 EC", 1, 1⟩] : List PackagerCode).Perm
      [⟨"", "BB 2 EC", 1, 1⟩, ⟨"", "AA 1 EC", 1, 1⟩] ∧
    (write_packager_codes_csv exFmt
        [⟨"", "AA 1 EC", 1, 1⟩, ⟨"", "BB 2 EC", 1, 1⟩]).flushed.Perm
      (write_packager_codes_csv exFmt
        [⟨"", "BB 2 EC", 1, 1⟩, ⟨"", "AA 1 EC", 1, 1⟩]).flushed :=
  claim_C9_determinism_up_to_order exCatPage exEstPage exGeo exFmt
    ["AA", "BB"] ["BB", "AA"]
    [⟨"", "AA 1 EC", 1, 1⟩, ⟨"", "BB 2 EC", 1, 1⟩]
    [⟨"", "BB 2 EC", 1, 1⟩, ⟨"", "AA 1 EC", 1, 1⟩]
    (List.Perm.swap "BB" "AA" []) rfl rfl

/-- Pointwise sums distribute over a mapped list. -/
theorem sum_map_add_distrib (order : List String) (f g : String → Nat) :
    (order.map (fun k => f k + g k)).sum = (order.map f).sum + (order.map g).sum := by
  induction order with
  | nil => rfl
  | cons k rest ih =>
    simp only [List.map_cons, List.sum_cons, ih]
    omega

/-- A key absent from the order contributes no occurrence. -/
theorem sum_map_ite_zero (x : String) (order : List String) (h : x ∉ order) :
    ((order.map (fun k => if x = k then 1 else 0)).sum : ℕ) = 0 := by
  induction order with
  | nil => rfl
  | cons k rest ih =>
    have hx : x ≠ k := fun hh => h (hh ▸ List.mem_cons_self k rest)
    have hr : x ∉ rest := fun hh => h (List.mem_cons_of_mem k hh)
    simp [hx, ih hr]

/-- Over a duplicate-free order each value is counted at most once. -/
theorem sum_map_ite_le_one (x : String) (order : List String) (h : order.Nodup) :
    (order.map (fun k => if x = k then 1 else 0)).sum ≤ 1 := by
  induction order with
  | nil => exact Nat.zero_le 1
  | cons k rest ih =>
    rcases List.nodup_cons.mp h with ⟨hk, hrest⟩
    by_cases hx : x = k
    · subst hx
      simp [sum_map_ite_zero x rest hk]
    · simp only [List.map_cons, List.sum_cons, if_neg hx, Nat.zero_add]
      exact ih hrest

/-- Summing, over a duplicate-free key order, the sizes of the per-key groups
of a list never exceeds the list's length. -/
theorem sum_filter_le_length (order : List String) (h : order.Nodup)
    (es : List Establishment) :
    (order.map (fun k => (es.filter (fun e => e.countryCode == k)).length)).sum ≤
      es.length := by
  induction es with
  | nil => simp
  | cons e rest ih =>
    have step : (order.map (fun k =>
        ((e :: rest).filter (fun x => x.countryCode == k)).length)).sum =
        (order.map (fun k => if e.countryCode = k then 1 else 0)).sum +
        (order.map (fun k => (rest.filter (fun x => x.countryCode == k)).length)).sum := by
      rw [← sum_map_add_distrib]
      apply congrArg
      apply List.map_congr_left
      intro k _
      by_cases hk : e.countryCode = k
      · simp only [List.filter_cons, hk, beq_self_eq_true, if_true,
          List.length_cons, if_pos]
        omega
      · simp [List.filter_cons, hk]
    rw [step]
    have h1 := sum_map_ite_le_one e.countryCode order h
    simp only [List.length_cons]
    omega

/-- With the per-category page size 1, a successful `allFetched` returns at
most one establishment per category. -/
theorem allFetched_length_le (ep : EstPage)
    (h2 : ∀ (c s : String) (o mx : Int) (r : List Establishment),
      ep c s o mx = .ok r → r.length ≤ mx.toNat)
    (cats : List CountryCategory) (es : List Establishment)
    (h : allFetched ep cats = .ok es) : es.length ≤ cats.length := by
  induction cats generalizing es with
  | nil =>
    injection h with h
    subst h
    exact Nat.le_refl 0
  | cons c rest ih =>
    unfold allFetched at h
    cases hd : fetch_establishments_for_country_and_section ep
        c.country.code c.classificationSectionId.code with
    | error err => rw [hd] at h; exact absurd h (by simp [Bind.bind, Except.bind])
    | ok data =>
      rw [hd] at h
      simp only [Bind.bind, Except.bind] at h
      cases hr : allFetched ep rest with
      | error err => rw [hr] at h; exact absurd h (by simp [Except.bind])
      | ok more =>
        rw [hr] at h
        simp only [Pure.pure, Except.pure, Except.ok.injEq] at h
        subst h
        have hdata : data.length ≤ 1 := by
          rw [fetch_establishments_eq_page] at hd
          exact h2 _ _ 0 1 data hd
        have hmore := ih more hr
        simp only [List.length_append, List.length_cons]
        omega

/-- C10: the category fetch asks for one page of at most 5 records, the
establishment fetch for one page of at most 1 record per category; if every
page respects its requested `max`, a run processes at most 5 valid categories,
each category contributes at most one establishment, and the CSV holds at most
5 data rows (at most 6 flushed rows, the header included). -/
theorem claim_C10_row_bound :
    ∀ (cp : CatPage) (ep : EstPage) (g : Geocoder) (order : List String)
      (codes : List PackagerCode),
      (∀ (o mx : Int) (r : List CountryCategory),
        cp o mx = .ok r → r.length ≤ mx.toNat) →
      (∀ (c s : String) (o mx : Int) (r : List Establishment),
        ep c s o mx = .ok r → r.length ≤ mx.toNat) →
      order.Nodup →
      run_pipeline_codes cp ep g order = .ok codes →
      (fetch_categories_by_countries cp = cp 0 5) ∧
      (∀ c s : String, fetch_establishments_for_country_and_section ep c s =
        ep c s 0 1) ∧
      (∀ cats, fetch_valid_categories_by_countries cp = .ok cats →
        cats.length ≤ 5) ∧
      (∀ (c s : String) (r : List Establishment),
        fetch_establishments_for_country_and_section ep c s = .ok r →
        r.length ≤ 1) ∧
      codes.length ≤ 5 ∧
      (∀ fmt : ℚ → String,
        (write_packager_codes_csv fmt codes).flushed.length ≤ 6) := by
  intro cp ep g order codes h1 h2 hnodup hrun
  have hcatsle : ∀ cats, fetch_valid_categories_by_countries cp = .ok cats →
      cats.length ≤ 5 := by
    intro cats hc
    unfold fetch_valid_categories_by_countries at hc
    cases hp : fetch_categories_by_countries cp with
    | error err => rw [hp] at hc; exact absurd hc (by simp [Bind.bind, Except.bind])
    | ok page =>
      rw [hp] at hc
      simp only [Bind.bind, Except.bind, Pure.pure, Except.pure,
        Except.ok.injEq] at hc
      subst hc
      have : page.length ≤ (5 : Int).toNat := by
        rw [fetch_categories_eq_page] at hp
        exact h1 0 5 page hp
      exact Nat.le_trans (List.length_filter_le _ page) this
  have hestle : ∀ (c s : String) (r : List Establishment),
      fetch_establishments_for_country_and_section ep c s = .ok r →
      r.length ≤ 1 := by
    intro c s r hr
    rw [fetch_establishments_eq_page] at hr
    exact h2 c s 0 1 r hr
  have hcodes : codes.length ≤ 5 := by
    obtain ⟨cats, grouped, hc, hm, hg⟩ :=
      run_pipeline_codes_spec cp ep g order codes hrun
    obtain ⟨es, hes, hk⟩ := mapEstGo_spec ep cats (fun _ => []) grouped hm
    unfold geocode_all_countries at hg
    injection hg with hg
    subst hg
    have hlen : ((order.map (fun k =>
        (grouped k).filterMap (processEstablishment g))).flatten).length ≤
        (order.map (fun k => (grouped k).length)).sum := by
      rw [List.length_flatten, List.map_map]
      apply List.sum_le_sum
      intro k _
      exact List.length_filterMap_le _ _
    have hgrp : (order.map (fun k => (grouped k).length)).sum ≤ es.length := by
      have heq : (order.map (fun k => (grouped k).length)).sum =
          (order.map (fun k =>
            (es.filter (fun e => e.countryCode == k)).length)).sum := by
        apply congrArg
        apply List.map_congr_left
        intro k _
        rw [hk k]
        simp
      rw [heq]
      exact sum_filter_le_length order hnodup es
    have heslen : es.length ≤ cats.length := allFetched_length_le ep h2 cats es hes
    have hcats5 : cats.length ≤ 5 := hcatsle cats hc
    omega
  refine ⟨fetch_categories_eq_page cp, fetch_establishments_eq_page ep,
    hcatsle, hestle, hcodes, ?_⟩
  intro fmt
  rw [(write_csv_spec fmt codes).2]
  cases codes with
  | nil => simp
  | cons c rest =>
    simp only [List.isEmpty_cons, Bool.false_eq_true, if_false,
      List.length_cons, List.length_map]
    simp only [List.length_cons] at hcodes
    omega

/-- Witness for C10 at the bounded concrete fetchers. -/
theorem claim_C10_witness :
    ([⟨"", "AA 1 EC", 1, 1⟩, ⟨"", "BB 2 EC", 1, 1⟩] : List PackagerCode).length ≤ 5 :=
  (claim_C10_row_bound exCatPageB exEstPageB exGeo ["AA", "BB"]
    [⟨"", "AA 1 EC", 1, 1⟩, ⟨"", "BB 2 EC", 1, 1⟩]
    (fun o mx r h => by
      injection h with h
      subst h
      exact List.length_take_le _ _)
    (fun c s o mx r h => by
      injection h with h
      subst h
      exact List.length_take_le _ _)
    (by decide) rfl).2.2.2.2.1

end Imsoc
